import Mathlib

/-
Verification of the island-di dependency-resolution core (src/di.ts).

The embedding models, faithfully to the TypeScript source:
  * the inversify binding registry consumed by the core (`bind`, `get`,
    `isBound`-style lookup, `snapshot`/`restore`), with bindings kept in
    insertion order, multiple bindings per identifier allowed (a `get` with
    zero matches fails with a not-bound error, with two or more matches with
    an ambiguous-match error), and singleton caches stored on the binding;
  * JS reference identity of constructed objects, via a token allocator
    threaded through resolution (`RunState.nextToken`); two instances are the
    same JS object exactly when their tokens agree;
  * `Di.Scope` (context / inject / run), `Di.ScopeContext`
    (setOnce / get), `Scope.bindScopeContext`, `Scope.bindScopeResources`,
    `Scope.injectScopeParameters`;
  * the Bluebird `Promise.using(disposerArray, fn)` combinator the source
    delegates cleanup to: all acquisition promises (started when the
    disposer factories ran during resolution) are awaited; if one failed the
    block is not invoked, the result is that acquisition error, and the
    resources whose acquisition succeeded are disposed; otherwise the block
    runs and every disposer executes after it settles, the block's outcome
    becoming the overall outcome.

Identifiers (class constructors and plain strings) are modelled as strings;
class constructors are identified by their name, matching
`getServiceIdentifierAsString`.  Class dependency lists (the information
inversify reads from `@inject` parameter metadata) are supplied by a
`ClassTable`.  Resolution is fuel-indexed: exhausted fuel returns a
`circular` error, standing for inversify's circular-dependency failure.
-/

namespace IslandDi

/-- A runtime value: either a plain (constant) value or a constructed object.
The token of an object models its JS reference identity; `fields` are the
constructor-injected dependencies, in parameter order. -/
inductive Value where
  | const : Nat → Value
  | obj : (token : Nat) → (cls : String) → (fields : List Value) → Value

mutual

/-- Boolean equality on values (the nested `fields` list forces a
hand-written decidable equality). -/
def Value.beq : Value → Value → Bool
  | .const m, .const n => m == n
  | .obj t c f, .obj t' c' f' => t == t' && c == c' && Value.beqList f f'
  | _, _ => false

/-- Boolean equality on lists of values. -/
def Value.beqList : List Value → List Value → Bool
  | [], [] => true
  | x :: xs, y :: ys => Value.beq x y && Value.beqList xs ys
  | _, _ => false

end

mutual

theorem Value.beq_iff : ∀ a b : Value, Value.beq a b = true ↔ a = b
  | .const m, .const n => by simp [Value.beq]
  | .const _, .obj _ _ _ => by simp [Value.beq]
  | .obj _ _ _, .const _ => by simp [Value.beq]
  | .obj t c f, .obj t' c' f' => by
    simp [Value.beq, Value.beqList_iff f f', and_assoc]

theorem Value.beqList_iff : ∀ xs ys : List Value, Value.beqList xs ys = true ↔ xs = ys
  | [], [] => by simp [Value.beqList]
  | [], _ :: _ => by simp [Value.beqList]
  | _ :: _, [] => by simp [Value.beqList]
  | x :: xs, y :: ys => by
    simp [Value.beqList, Value.beq_iff x y, Value.beqList_iff xs ys]

end

instance : DecidableEq Value := fun a b =>
  decidable_of_iff (Value.beq a b = true) (Value.beq_iff a b)

/-- How a binding produces a value, covering the producer kinds the core
installs: `toConstantValue`, `to(cls)` (transient), `to(cls).inSingletonScope()`,
and the dynamic-value closure `bindScopeResources` installs for a scope
resource (which acquires the per-scope singleton and records a disposer).
`acquireFails` records whether the disposer factory's acquisition promise for
that resource fails (the factory is fixed at registration). -/
inductive Producer where
  | constant : Value → Producer
  | transientOf : String → Producer
  | singletonOf : String → Producer
  | resource : (name : String) → (acquireFails : Bool) → Producer
deriving DecidableEq

/-- One registry binding: its producer and, for singleton-scoped bindings,
the cached instance. -/
structure Binding where
  producer : Producer
  cache : Option Value
deriving DecidableEq

/-- The shared inversify container: the current binding list (insertion
order) and the snapshot stack. -/
structure Kernel where
  bindings : List (String × Binding)
  snapshots : List (List (String × Binding))
deriving DecidableEq

/-- Errors thrown synchronously during binding/resolution. `circular` stands
for fuel exhaustion, i.e. inversify's circular-dependency error. -/
inductive DiError where
  | notBound (id : String)
  | ambiguous (id : String)
  | noClass (cls : String)
  | duplicateKey (name : String)
  | missingKey (name : String)
  | circular
deriving DecidableEq

/-- A deferred release recorded in the scope's disposer set
(`this.disposers[name] = resource.disposerFactory(instance)`): the resource
identifier it is keyed by, the acquired instance it will release, and whether
its acquisition promise fails. -/
structure Disposer where
  name : String
  inst : Value
  acquireFails : Bool
deriving DecidableEq

/-- State threaded through one scope's resolution phase: the shared kernel,
the scope's disposer set (insertion order), and the object-token allocator. -/
structure RunState where
  kernel : Kernel
  disposers : List Disposer
  nextToken : Nat
deriving DecidableEq

/-- Constructor dependency lists per class name (the `@inject` metadata). -/
abbrev ClassTable := List (String × List String)

/-- Constructor parameter identifiers of a class. -/
def lookupClass (classes : ClassTable) (cls : String) : Option (List String) :=
  (classes.find? (fun p => p.1 == cls)).map Prod.snd

/-- All bindings currently registered for an identifier, in insertion order. -/
def lookupL (bs : List (String × Binding)) (id : String) : List Binding :=
  (bs.filter (fun p => p.1 == id)).map Prod.snd

/-- All bindings of the kernel for an identifier. -/
def lookupBindings (k : Kernel) (id : String) : List Binding :=
  lookupL k.bindings id

/-- Store a singleton cache on the binding(s) for an identifier. -/
def setCacheL (bs : List (String × Binding)) (id : String) (v : Value) :
    List (String × Binding) :=
  bs.map (fun p => if p.1 == id then (p.1, { p.2 with cache := some v }) else p)

/-- Store a singleton cache on the kernel's binding for an identifier. -/
def setCache (k : Kernel) (id : String) (v : Value) : Kernel :=
  { k with bindings := setCacheL k.bindings id v }

/-- `kernel.bind(id)...`: append a fresh binding for an identifier. -/
def kbind (k : Kernel) (id : String) (p : Producer) : Kernel :=
  { k with bindings := k.bindings ++ [(id, ⟨p, none⟩)] }

/-- `kernel.snapshot()`: push a checkpoint of the current binding set. -/
def Kernel.snapshot (k : Kernel) : Kernel :=
  { k with snapshots := k.bindings :: k.snapshots }

/-- `kernel.restore()`: pop the latest checkpoint back into place.  (On an
empty snapshot stack inversify throws; `run` always snapshots first, so that
branch is unreachable from the modelled code and is mapped to a no-op.) -/
def Kernel.restore (k : Kernel) : Kernel :=
  match k.snapshots with
  | [] => k
  | b :: rest => { bindings := b, snapshots := rest }

/-- The string identifier `bindScopeResources` derives for the per-scope
singleton binding of a resource: `name + '@instance'`. -/
def resourceInstanceId (name : String) : String := name ++ "@instance"

/-- The identifier of the per-scope `ScopeContext` binding. -/
def scopeContextId : String := "ScopeContext"

mutual

/-- `kernel.get(id)`: look the identifier up and run its producer.
Zero matching bindings throw not-bound, two or more throw ambiguous-match.
A transient binding constructs a fresh instance; a singleton binding returns
its cache or constructs and caches; the scope-resource dynamic value gets the
`name + '@instance'` singleton and, only if the disposer set has no entry for
`name` yet, records `disposerFactory(instance)` there. -/
def resolve1 (classes : ClassTable) :
    Nat → RunState → String → Except DiError Value × RunState
  | 0, s, _ => (.error .circular, s)
  | fuel + 1, s, id =>
    match lookupBindings s.kernel id with
    | [] => (.error (.notBound id), s)
    | [b] =>
      match b.producer with
      | .constant v => (.ok v, s)
      | .transientOf cls => construct classes fuel s cls
      | .singletonOf cls =>
        match b.cache with
        | some v => (.ok v, s)
        | none =>
          match construct classes fuel s cls with
          | (.error e, s1) => (.error e, s1)
          | (.ok v, s1) => (.ok v, { s1 with kernel := setCache s1.kernel id v })
      | .resource name fails =>
        match resolve1 classes fuel s (resourceInstanceId name) with
        | (.error e, s1) => (.error e, s1)
        | (.ok inst, s1) =>
          if (s1.disposers.map Disposer.name).contains name then (.ok inst, s1)
          else (.ok inst, { s1 with disposers := s1.disposers ++ [⟨name, inst, fails⟩] })
    | _ :: _ :: _ => (.error (.ambiguous id), s)

/-- Instantiate a class: resolve its constructor parameters in order, then
allocate a fresh object (fresh token = new JS reference). -/
def construct (classes : ClassTable) :
    Nat → RunState → String → Except DiError Value × RunState
  | 0, s, _ => (.error .circular, s)
  | fuel + 1, s, cls =>
    match lookupClass classes cls with
    | none => (.error (.noClass cls), s)
    | some params =>
      match resolveList classes fuel s params with
      | (.error e, s1) => (.error e, s1)
      | (.ok vs, s1) =>
        (.ok (.obj s1.nextToken cls vs), { s1 with nextToken := s1.nextToken + 1 })

/-- Resolve a list of identifiers left to right, threading the state
(`this.injections.map(identifier => this.kernel.get(identifier))`). -/
def resolveList (classes : ClassTable) :
    Nat → RunState → List String → Except DiError (List Value) × RunState
  | 0, s, _ => (.error .circular, s)
  | _ + 1, s, [] => (.ok [], s)
  | fuel + 1, s, id :: rest =>
    match resolve1 classes fuel s id with
    | (.error e, s1) => (.error e, s1)
    | (.ok v, s1) =>
      match resolveList classes fuel s1 rest with
      | (.error e, s2) => (.error e, s2)
      | (.ok vs, s2) => (.ok (v :: vs), s2)

end

/-- The write-once key/value store inside one `ScopeContext` instance. -/
abbrev CtxStore := List (String × Value)

/-- `this.context.hasOwnProperty(name)`. -/
def hasOwn (c : CtxStore) (n : String) : Bool :=
  c.any (fun p => p.1 == n)

/-- `ScopeContext.setOnce(name, value)`: the pair is the store after the call
(JS object state) together with the error thrown, if any.  On a duplicate key
the method throws before assigning, so the store is returned unchanged. -/
def setOnce (c : CtxStore) (n : String) (v : Value) : CtxStore × Option DiError :=
  if hasOwn c n then (c, some (.duplicateKey n))
  else (c ++ [(n, v)], none)

/-- `ScopeContext.get(name)`: missing-key error if never set, else the
stored value. -/
def ctxGet (c : CtxStore) (n : String) : Except DiError Value :=
  match c.find? (fun p => p.1 == n) with
  | none => .error (.missingKey n)
  | some p => .ok p.2

/-- The `_.forEach(objToBindScopeContext, (value, name) => scopeContext.setOnce(name, value))`
loop: entries are installed in order; the first thrown error propagates. -/
def populate (c : CtxStore) : List (String × Value) → CtxStore × Option DiError
  | [] => (c, none)
  | (n, v) :: rest =>
    match setOnce c n v with
    | (c1, none) => populate c1 rest
    | (c1, some e) => (c1, some e)

/-- A resource registration (`bindScopeResource(aClass, disposerFactory)`):
the class (identified by its name) and whether the factory's acquisition
promise fails. -/
structure ScopeResource where
  ctorName : String
  acquireFails : Bool
deriving DecidableEq

/-- `Scope.bindScopeContext()` (first half of `run`'s overlay): bind a fresh
per-scope `ScopeContext` singleton and, if `context(...)` supplied data, get
the context instance and populate it write-once.  The freshly bound singleton
has no cache, so the instance the `get` returns starts with an empty store;
if `ScopeContext` was already bound the `get` throws an ambiguous-match
error, which propagates exactly like a duplicate-key error would. -/
def bindScopeContextM (classes : ClassTable) (fuel : Nat)
    (ctxData : Option (List (String × Value))) (s : RunState) :
    Option DiError × RunState :=
  let s1 : RunState :=
    { s with kernel := kbind s.kernel scopeContextId (.singletonOf scopeContextId) }
  match ctxData with
  | none => (none, s1)
  | some entries =>
    match resolve1 classes fuel s1 scopeContextId with
    | (.error e, s2) => (some e, s2)
    | (.ok _, s2) =>
      match populate [] entries with
      | (_, some e) => (some e, s2)
      | (_, none) => (none, s2)

/-- `Scope.bindScopeResources()`: for each registered resource, bind the
`name + '@instance'` per-scope singleton and the dynamic-value producer for
the resource identifier itself, in registration order. -/
def bindScopeResources (resources : List ScopeResource) (k : Kernel) : Kernel :=
  resources.foldl
    (fun k r =>
      kbind (kbind k (resourceInstanceId r.ctorName) (.singletonOf r.ctorName))
        r.ctorName (.resource r.ctorName r.acquireFails))
    k

/-- The result of `run`: either an acquisition failure (a disposer's acquire
step failed, the task was never invoked) or the task's own outcome. -/
inductive RunError where
  | acquireFailed (name : String)
  | taskFailed (msg : String)
deriving DecidableEq

/-- Bluebird `Promise.using(disposerArray, () => Promise.resolve(task(...args)))`:
if some acquisition promise failed, the block is not invoked, the first such
failure (in disposer order) is the outcome, and exactly the resources whose
acquisition succeeded are released; otherwise the task runs on the resolved
arguments, every disposer releases its instance afterwards, and the task's
outcome (value, synchronous throw, or rejected promise) is the outcome. -/
def runUsing {R : Type} (disposers : List Disposer) (args : List Value)
    (task : List Value → Except String R) :
    List (String × Value) × Except RunError R :=
  match disposers.find? (fun d => d.acquireFails) with
  | some d =>
    ((disposers.filter (fun x => !x.acquireFails)).map (fun x => (x.name, x.inst)),
      .error (.acquireFailed d.name))
  | none =>
    (disposers.map (fun x => (x.name, x.inst)),
      match task args with
      | .ok r => .ok r
      | .error m => .error (.taskFailed m))

instance {ε α : Type} [DecidableEq ε] [DecidableEq α] : DecidableEq (Except ε α) :=
  fun x y =>
    match x, y with
    | .ok a, .ok b =>
      if h : a = b then isTrue (by rw [h]) else isFalse (by simp [h])
    | .error e, .error f =>
      if h : e = f then isTrue (by rw [h]) else isFalse (by simp [h])
    | .ok _, .error _ => isFalse (by simp)
    | .error _, .ok _ => isFalse (by simp)

/-- The overall observable outcome of `Scope.run`.  `syncThrow` is a
synchronous throw out of the resolution phase: it carries the kernel and
allocator at the throw point and the disposer set accumulated so far (whose
releases never run).  `finished` carries the kernel after `restore`, the
releases that executed (name, instance) in execution order, and the result. -/
inductive RunOutcome (R : Type) where
  | syncThrow (e : DiError) (kernel : Kernel) (nextToken : Nat)
      (pending : List Disposer)
  | finished (kernel : Kernel) (nextToken : Nat)
      (released : List (String × Value)) (result : Except RunError R)
deriving DecidableEq

/-- One `Di.Scope` instance: the context data recorded by `context(...)`
(the latest call wins, `this.objToBindScopeContext = contextToBind`), the
declared identifiers recorded by `inject(...)` (the latest call wins,
`this.injections = args`), and the disposer set (empty at construction). -/
structure Scope where
  ctxData : Option (List (String × Value)) := none
  injections : List String := []
  disposers : List Disposer := []
deriving DecidableEq

/-- `Scope.context(contextToBind)`: record (replace) the context data. -/
def Scope.context (sc : Scope) (d : List (String × Value)) : Scope :=
  { sc with ctxData := some d }

/-- `Scope.inject(...args)`: record (replace) the declared identifiers. -/
def Scope.inject (sc : Scope) (ids : List String) : Scope :=
  { sc with injections := ids }

/-- `Container.scope()`: a fresh scope over the container's kernel and
resource registrations. -/
def freshScope : Scope := {}

/-- `Scope.run(task)`, exactly in source order:
`kernel.snapshot(); bindScopeContext(); bindScopeResources();
injectScopeParameters(); kernel.restore();` then
`Promise.using(disposerArray, () => Promise.resolve(task(...injectedObjects)))`.
There is no try/finally: a throw during the resolution phase propagates
without `restore` running and without any disposer executing. -/
def Scope.runModel {R : Type} (classes : ClassTable)
    (resources : List ScopeResource) (sc : Scope)
    (kernel : Kernel) (nextToken : Nat) (fuel : Nat)
    (task : List Value → Except String R) : RunOutcome R :=
  let s0 : RunState := ⟨Kernel.snapshot kernel, sc.disposers, nextToken⟩
  match bindScopeContextM classes fuel sc.ctxData s0 with
  | (some e, s) => .syncThrow e s.kernel s.nextToken s.disposers
  | (none, s2) =>
    match resolveList classes fuel
        { s2 with kernel := bindScopeResources resources s2.kernel }
        sc.injections with
    | (.error e, s4) => .syncThrow e s4.kernel s4.nextToken s4.disposers
    | (.ok args, s4) =>
      match runUsing s4.disposers args task with
      | (released, result) =>
        .finished (Kernel.restore s4.kernel) s4.nextToken released result

/-- The set of identifiers observably bound in the kernel. -/
def boundIds (k : Kernel) : List String :=
  (k.bindings.map Prod.fst).dedup

/-- A task that simply returns its positional arguments. -/
def idTask : List Value → Except String (List Value) := fun args => .ok args

/-- Dependency lists mirroring the repository's test fixtures: `Baz` and
`BazBaz` both depend on `Resource`; `Foo` and `Resource` have none. -/
def demoClasses : ClassTable :=
  [("ScopeContext", []), ("Baz", ["Resource"]), ("BazBaz", ["Resource"]),
   ("Resource", []), ("Foo", [])]

/-- A registry binding the demo classes transiently, as
`bindTransientClass` does. -/
def demoBindings : List (String × Binding) :=
  [("Foo", ⟨.transientOf "Foo", none⟩), ("Baz", ⟨.transientOf "Baz", none⟩),
   ("BazBaz", ⟨.transientOf "BazBaz", none⟩)]

/-- The demo kernel before any scope runs. -/
def demoKernel : Kernel := ⟨demoBindings, []⟩

/-- `Resource` registered via `bindScopeResource`, with a succeeding
acquisition step. -/
def demoResources : List ScopeResource := [⟨"Resource", false⟩]

/-- The kernel state `run` leaves behind when resolution fails on the unbound
identifier `"Qux"` after the scope overlay was installed and `Resource` was
acquired: the overlay bindings and the pushed snapshot remain, because the
source calls `this.kernel.restore()` only on the straight-line path and a
throw from `injectScopeParameters` skips it. -/
def c1LeakKernel : Kernel :=
  ⟨demoBindings ++
    [("ScopeContext", ⟨.singletonOf "ScopeContext", none⟩),
     ("Resource@instance", ⟨.singletonOf "Resource", some (.obj 0 "Resource" [])⟩),
     ("Resource", ⟨.resource "Resource" false, none⟩)],
   [demoBindings]⟩

/-- A task that fails with a fixed message (a throwing unit of work). -/
def errTask (m : String) : List Value → Except String (List Value) :=
  fun _ => .error m

/-- The identifier/producer skeleton of a binding list (everything except
the singleton caches, which are the only part of existing bindings that
resolution may change). -/
def skel (bs : List (String × Binding)) : List (String × Producer) :=
  bs.map (fun p => (p.1, p.2.producer))

/-- The producers of a binding list, in order. -/
def producersOf (bs : List (String × Binding)) : List Producer :=
  bs.map (fun p => p.2.producer)

/-- Whether a producer is a scope-resource dynamic value. -/
def isResourceProducer : Producer → Bool
  | .resource _ _ => true
  | _ => false

/-- How one scope's resolution phase may change the run state: the binding
skeleton and the snapshot stack are untouched (only caches may be filled),
the token allocator grows, the disposer set only grows, every added disposer
stems from a scope-resource producer installed in the kernel, and
distinctness of disposer keys is preserved. -/
def StInv (s s' : RunState) : Prop :=
  skel s'.kernel.bindings = skel s.kernel.bindings ∧
  s'.kernel.snapshots = s.kernel.snapshots ∧
  s.nextToken ≤ s'.nextToken ∧
  (∃ tail, s'.disposers = s.disposers ++ tail ∧
    ∀ d ∈ tail, Producer.resource d.name d.acquireFails ∈ producersOf s.kernel.bindings) ∧
  ((s.disposers.map Disposer.name).Nodup → (s'.disposers.map Disposer.name).Nodup)


/-- The run state after step 1-2 of `run` on the demo kernel with no context
data: snapshot pushed, fresh `ScopeContext` singleton bound. -/
def demoS2 : RunState :=
  ⟨⟨demoBindings ++ [("ScopeContext", ⟨.singletonOf "ScopeContext", none⟩)],
    [demoBindings]⟩, [], 0⟩

/-- The run state after resolving `[Baz, BazBaz]` on the demo kernel:
`Resource` acquired once (token 0), cached, one disposer recorded. -/
def c2S4 : RunState :=
  ⟨⟨demoBindings ++
      [("ScopeContext", ⟨.singletonOf "ScopeContext", none⟩),
       ("Resource@instance", ⟨.singletonOf "Resource", some (.obj 0 "Resource" [])⟩),
       ("Resource", ⟨.resource "Resource" false, none⟩)], [demoBindings]⟩,
   [⟨"Resource", .obj 0 "Resource" [], false⟩], 3⟩

/-- The run state after resolving `[Baz]` when `Resource`'s acquisition
promise fails. -/
def c4S4 : RunState :=
  ⟨⟨demoBindings ++
      [("ScopeContext", ⟨.singletonOf "ScopeContext", none⟩),
       ("Resource@instance", ⟨.singletonOf "Resource", some (.obj 0 "Resource" [])⟩),
       ("Resource", ⟨.resource "Resource" true, none⟩)], [demoBindings]⟩,
   [⟨"Resource", .obj 0 "Resource" [], true⟩], 2⟩

/-- The run state after resolving `[Foo, Baz]` on the demo kernel. -/
def c9S4 : RunState :=
  ⟨⟨demoBindings ++
      [("ScopeContext", ⟨.singletonOf "ScopeContext", none⟩),
       ("Resource@instance", ⟨.singletonOf "Resource", some (.obj 1 "Resource" [])⟩),
       ("Resource", ⟨.resource "Resource" false, none⟩)], [demoBindings]⟩,
   [⟨"Resource", .obj 1 "Resource" [], false⟩], 3⟩

/-! Supporting lemmas about the write-once scope context. -/

theorem hasOwn_of_ctxGet_ok {c : CtxStore} {n : String} {w : Value}
    (h : ctxGet c n = .ok w) : hasOwn c n = true := by
  unfold ctxGet at h
  cases hf : c.find? (fun p => p.1 == n) with
  | none => rw [hf] at h; cases h
  | some p =>
    have hp := List.find?_some hf
    have hmem := List.mem_of_find?_eq_some hf
    exact List.any_eq_true.mpr ⟨p, hmem, hp⟩

theorem hasOwn_false_iff_find?_none {c : CtxStore} {n : String} :
    hasOwn c n = false ↔ c.find? (fun p => p.1 == n) = none := by
  simp [hasOwn, List.any_eq_false, List.find?_eq_none]

theorem find?_append_self (c : CtxStore) (n : String) (v : Value)
    (h : hasOwn c n = false) :
    (c ++ [(n, v)]).find? (fun p => p.1 == n) = some (n, v) := by
  induction c with
  | nil => simp
  | cons p rest ih =>
    have h' : (p.1 == n) = false ∧ hasOwn rest n = false := by
      simpa [hasOwn, Bool.or_eq_false_iff] using h
    simpa [List.find?_cons, h'.1] using ih h'.2

/-- C1.  The claim says the shared registry's bound-identifier set is always
restored after `run`, even when resolution fails partway.  The code violates
this: `Scope.run` calls `this.kernel.restore()` on the straight-line path
only, with no try/finally, so a throw during resolution (here: the unbound
identifier `"Qux"` declared via `inject`) leaves the scope overlay
(`ScopeContext`, `Resource@instance`, `Resource`) and the pushed snapshot in
the shared kernel, and the already-acquired `Resource` disposer never runs.
This theorem evaluates the model at that failing input: `run` throws, the
leaked kernel still holds the overlay, and `"ScopeContext"` is bound after
`run` but was not before. -/
theorem c1_registry_leak_on_resolution_failure :
    Scope.runModel demoClasses demoResources { injections := ["Resource", "Qux"] }
        demoKernel 0 20 idTask =
      .syncThrow (.notBound "Qux") c1LeakKernel 1
        [⟨"Resource", .obj 0 "Resource" [], false⟩] ∧
    "ScopeContext" ∈ boundIds c1LeakKernel ∧
    "ScopeContext" ∉ boundIds demoKernel := by
  refine ⟨by decide, by decide, by decide⟩

/-- C7.  `ScopeContext.setOnce(name, value)`: if `name` already has a value,
the call fails with the duplicate-key error and the stored value is
unchanged (the throw happens before the assignment); if `name` is unset, the
value is stored (and the method returns the context itself for chaining —
in the model, the updated store together with no error). -/
theorem c7_setOnce_write_once (c : CtxStore) (n : String) (v : Value) :
    (∀ w, ctxGet c n = .ok w →
      setOnce c n v = (c, some (.duplicateKey n)) ∧
        ctxGet (setOnce c n v).1 n = .ok w) ∧
    (hasOwn c n = false → setOnce c n v = (c ++ [(n, v)], none)) := by
  constructor
  · intro w h
    have hown := hasOwn_of_ctxGet_ok h
    refine ⟨by simp [setOnce, hown], ?_⟩
    simp [setOnce, hown, h]
  · intro h
    simp [setOnce, h]

/-- C7 witness: on the store `{a ↦ const 1}`, a second `setOnce` of `"a"`
fails with the duplicate-key error and leaves `const 1` readable. -/
theorem c7_setOnce_write_once_witness :
    setOnce [("a", .const 1)] "a" (.const 2) =
        ([("a", .const 1)], some (.duplicateKey "a")) ∧
      ctxGet (setOnce [("a", .const 1)] "a" (.const 2)).1 "a" = .ok (.const 1) :=
  (c7_setOnce_write_once [("a", .const 1)] "a" (.const 2)).1 (.const 1) (by decide)

/-- C8.  `ScopeContext.get(name)` fails with the missing-key error exactly
when `name` was never set; after a successful `setOnce(name, v)`, `get(name)`
returns `v`. -/
theorem c8_get_missing_or_stored (c : CtxStore) (n : String) :
    (ctxGet c n = .error (.missingKey n) ↔ hasOwn c n = false) ∧
    (∀ v, hasOwn c n = false → ctxGet (setOnce c n v).1 n = .ok v) := by
  constructor
  · constructor
    · intro h
      by_contra hown
      have hown' : hasOwn c n = true := by
        cases htf : hasOwn c n with
        | false => exact absurd htf hown
        | true => rfl
      obtain ⟨p, hmem, hp⟩ := List.any_eq_true.mp hown'
      unfold ctxGet at h
      cases hf : c.find? (fun q => q.1 == n) with
      | none =>
        have := hasOwn_false_iff_find?_none.mpr hf
        rw [this] at hown'
        cases hown'
      | some q => rw [hf] at h; cases h
    · intro h
      have := hasOwn_false_iff_find?_none.mp h
      simp [ctxGet, this]
  · intro v h
    simp [setOnce, h, ctxGet, find?_append_self c n v h]

/-- C8 witness: on the empty store, `get "a"` fails with the missing-key
error, and after `setOnce "a" (const 7)` it returns `const 7`. -/
theorem c8_get_missing_or_stored_witness :
    ctxGet [] "a" = .error (.missingKey "a") ∧
      ctxGet (setOnce [] "a" (.const 7)).1 "a" = .ok (.const 7) :=
  ⟨(c8_get_missing_or_stored [] "a").1.mpr (by decide),
   (c8_get_missing_or_stored [] "a").2 (.const 7) (by decide)⟩

/-- C10.  `inject` assigns `this.injections = args` and `context` assigns
`this.objToBindScopeContext = contextToBind`: a second call replaces the
previous arguments entirely, and `run` (which only reads those fields) uses
the last call's arguments. -/
theorem c10_inject_context_replace (sc : Scope) (a b : List String)
    (d e : List (String × Value)) :
    (sc.inject a).inject b = sc.inject b ∧
    (sc.context d).context e = sc.context e ∧
    (∀ (R : Type) (classes : ClassTable) (resources : List ScopeResource)
        (kernel : Kernel) (tok fuel : Nat) (task : List Value → Except String R),
      Scope.runModel classes resources ((sc.inject a).inject b) kernel tok fuel task =
        Scope.runModel classes resources (sc.inject b) kernel tok fuel task) ∧
    (∀ (R : Type) (classes : ClassTable) (resources : List ScopeResource)
        (kernel : Kernel) (tok fuel : Nat) (task : List Value → Except String R),
      Scope.runModel classes resources ((sc.context d).context e) kernel tok fuel task =
        Scope.runModel classes resources (sc.context e) kernel tok fuel task) :=
  ⟨rfl, rfl, fun _ _ _ _ _ _ _ => rfl, fun _ _ _ _ _ _ _ => rfl⟩

/-! Step equations of the resolution functions, used both for the
state-evolution invariant and for symbolic evaluation in later claims. -/

theorem resolve1_notBound {classes : ClassTable} {n : Nat} {s : RunState} {id : String}
    (hl : lookupBindings s.kernel id = []) :
    resolve1 classes (n + 1) s id = (.error (.notBound id), s) := by
  simp [resolve1, hl]

theorem resolve1_ambiguous {classes : ClassTable} {n : Nat} {s : RunState} {id : String}
    {b1 b2 : Binding} {bs : List Binding}
    (hl : lookupBindings s.kernel id = b1 :: b2 :: bs) :
    resolve1 classes (n + 1) s id = (.error (.ambiguous id), s) := by
  simp [resolve1, hl]

theorem resolve1_constant {classes : ClassTable} {n : Nat} {s : RunState} {id : String}
    {v : Value} {c : Option Value}
    (hl : lookupBindings s.kernel id = [⟨.constant v, c⟩]) :
    resolve1 classes (n + 1) s id = (.ok v, s) := by
  simp [resolve1, hl]

theorem resolve1_transient {classes : ClassTable} {n : Nat} {s : RunState} {id : String}
    {cls : String} {c : Option Value}
    (hl : lookupBindings s.kernel id = [⟨.transientOf cls, c⟩]) :
    resolve1 classes (n + 1) s id = construct classes n s cls := by
  simp [resolve1, hl]

theorem resolve1_singleton_hit {classes : ClassTable} {n : Nat} {s : RunState}
    {id : String} {cls : String} {v : Value}
    (hl : lookupBindings s.kernel id = [⟨.singletonOf cls, some v⟩]) :
    resolve1 classes (n + 1) s id = (.ok v, s) := by
  simp [resolve1, hl]

theorem resolve1_singleton_miss_err {classes : ClassTable} {n : Nat} {s s1 : RunState}
    {id : String} {cls : String} {e : DiError}
    (hl : lookupBindings s.kernel id = [⟨.singletonOf cls, none⟩])
    (hc : construct classes n s cls = (.error e, s1)) :
    resolve1 classes (n + 1) s id = (.error e, s1) := by
  simp [resolve1, hl, hc]

theorem resolve1_singleton_miss_ok {classes : ClassTable} {n : Nat} {s s1 : RunState}
    {id : String} {cls : String} {v : Value}
    (hl : lookupBindings s.kernel id = [⟨.singletonOf cls, none⟩])
    (hc : construct classes n s cls = (.ok v, s1)) :
    resolve1 classes (n + 1) s id =
      (.ok v, { s1 with kernel := setCache s1.kernel id v }) := by
  simp [resolve1, hl, hc]

theorem resolve1_resource_err {classes : ClassTable} {n : Nat} {s s1 : RunState}
    {id name : String} {fails : Bool} {c : Option Value} {e : DiError}
    (hl : lookupBindings s.kernel id = [⟨.resource name fails, c⟩])
    (hr : resolve1 classes n s (resourceInstanceId name) = (.error e, s1)) :
    resolve1 classes (n + 1) s id = (.error e, s1) := by
  simp [resolve1, hl, hr]

theorem resolve1_resource_hit {classes : ClassTable} {n : Nat} {s s1 : RunState}
    {id name : String} {fails : Bool} {c : Option Value} {inst : Value}
    (hl : lookupBindings s.kernel id = [⟨.resource name fails, c⟩])
    (hr : resolve1 classes n s (resourceInstanceId name) = (.ok inst, s1))
    (hct : ((s1.disposers.map Disposer.name).contains name) = true) :
    resolve1 classes (n + 1) s id = (.ok inst, s1) := by
  simp only [resolve1, hl, hr]
  rw [hct]
  simp

theorem resolve1_resource_new {classes : ClassTable} {n : Nat} {s s1 : RunState}
    {id name : String} {fails : Bool} {c : Option Value} {inst : Value}
    (hl : lookupBindings s.kernel id = [⟨.resource name fails, c⟩])
    (hr : resolve1 classes n s (resourceInstanceId name) = (.ok inst, s1))
    (hct : ((s1.disposers.map Disposer.name).contains name) = false) :
    resolve1 classes (n + 1) s id =
      (.ok inst, { s1 with disposers := s1.disposers ++ [⟨name, inst, fails⟩] }) := by
  simp only [resolve1, hl, hr]
  rw [hct]
  simp

theorem construct_noClass {classes : ClassTable} {n : Nat} {s : RunState} {cls : String}
    (hlc : lookupClass classes cls = none) :
    construct classes (n + 1) s cls = (.error (.noClass cls), s) := by
  simp [construct, hlc]

theorem construct_err {classes : ClassTable} {n : Nat} {s s1 : RunState} {cls : String}
    {params : List String} {e : DiError}
    (hlc : lookupClass classes cls = some params)
    (hrl : resolveList classes n s params = (.error e, s1)) :
    construct classes (n + 1) s cls = (.error e, s1) := by
  simp [construct, hlc, hrl]

theorem construct_ok {classes : ClassTable} {n : Nat} {s s1 : RunState} {cls : String}
    {params : List String} {vs : List Value}
    (hlc : lookupClass classes cls = some params)
    (hrl : resolveList classes n s params = (.ok vs, s1)) :
    construct classes (n + 1) s cls =
      (.ok (.obj s1.nextToken cls vs), { s1 with nextToken := s1.nextToken + 1 }) := by
  simp [construct, hlc, hrl]

theorem resolveList_nil {classes : ClassTable} {n : Nat} {s : RunState} :
    resolveList classes (n + 1) s [] = (.ok [], s) := by
  simp [resolveList]

theorem resolveList_cons_err {classes : ClassTable} {n : Nat} {s s1 : RunState}
    {id : String} {rest : List String} {e : DiError}
    (h1 : resolve1 classes n s id = (.error e, s1)) :
    resolveList classes (n + 1) s (id :: rest) = (.error e, s1) := by
  simp [resolveList, h1]

theorem resolveList_cons_ok_err {classes : ClassTable} {n : Nat} {s s1 s2 : RunState}
    {id : String} {rest : List String} {v : Value} {e : DiError}
    (h1 : resolve1 classes n s id = (.ok v, s1))
    (h2 : resolveList classes n s1 rest = (.error e, s2)) :
    resolveList classes (n + 1) s (id :: rest) = (.error e, s2) := by
  simp [resolveList, h1, h2]

theorem resolveList_cons_ok_ok {classes : ClassTable} {n : Nat} {s s1 s2 : RunState}
    {id : String} {rest : List String} {v : Value} {vs : List Value}
    (h1 : resolve1 classes n s id = (.ok v, s1))
    (h2 : resolveList classes n s1 rest = (.ok vs, s2)) :
    resolveList classes (n + 1) s (id :: rest) = (.ok (v :: vs), s2) := by
  simp [resolveList, h1, h2]

/-! State-evolution invariant of the resolution phase. -/

theorem producersOf_eq_skel_map (bs : List (String × Binding)) :
    producersOf bs = (skel bs).map Prod.snd := by
  simp [producersOf, skel, List.map_map, Function.comp]

theorem producersOf_eq_of_skel_eq {bs bs' : List (String × Binding)}
    (h : skel bs = skel bs') : producersOf bs = producersOf bs' := by
  rw [producersOf_eq_skel_map, producersOf_eq_skel_map, h]

theorem StInv.refl (s : RunState) : StInv s s :=
  ⟨rfl, rfl, Nat.le_refl _, ⟨[], by simp⟩, fun h => h⟩

theorem StInv.trans {s t u : RunState} (h1 : StInv s t) (h2 : StInv t u) :
    StInv s u := by
  obtain ⟨hs1, hn1, ht1, ⟨tl1, hd1, hp1⟩, hnd1⟩ := h1
  obtain ⟨hs2, hn2, ht2, ⟨tl2, hd2, hp2⟩, hnd2⟩ := h2
  refine ⟨hs2.trans hs1, hn2.trans hn1, Nat.le_trans ht1 ht2,
    ⟨tl1 ++ tl2, ?_, ?_⟩, fun h => hnd2 (hnd1 h)⟩
  · rw [hd2, hd1, List.append_assoc]
  · intro d hd
    rcases List.mem_append.mp hd with h | h
    · exact hp1 d h
    · have hm := hp2 d h
      rwa [producersOf_eq_of_skel_eq hs1] at hm

theorem StInv_setCache (s : RunState) (id : String) (v : Value) :
    StInv s { s with kernel := setCache s.kernel id v } := by
  refine ⟨?_, rfl, Nat.le_refl _, ⟨[], by simp⟩, fun h => h⟩
  show skel (setCacheL s.kernel.bindings id v) = skel s.kernel.bindings
  unfold skel setCacheL
  rw [List.map_map]
  apply List.map_congr_left
  intro p _
  by_cases h : (p.1 == id) = true <;> simp [h, Function.comp]

theorem StInv_bump (s : RunState) :
    StInv s { s with nextToken := s.nextToken + 1 } :=
  ⟨rfl, rfl, Nat.le_succ _, ⟨[], by simp⟩, fun h => h⟩

theorem StInv_dispose (s : RunState) (name : String) (inst : Value) (fails : Bool)
    (hnot : ((s.disposers.map Disposer.name).contains name) = false)
    (hmem : Producer.resource name fails ∈ producersOf s.kernel.bindings) :
    StInv s { s with disposers := s.disposers ++ [⟨name, inst, fails⟩] } := by
  refine ⟨rfl, rfl, Nat.le_refl _, ⟨[⟨name, inst, fails⟩], rfl, ?_⟩, ?_⟩
  · intro d hd
    rw [List.mem_singleton] at hd
    subst hd
    exact hmem
  · intro h
    have hnm : name ∉ s.disposers.map Disposer.name := by simpa using hnot
    simp [List.nodup_append, h, hnm]

theorem producer_mem_of_lookup {k : Kernel} {id : String} {b : Binding}
    (hl : lookupBindings k id = [b]) :
    b.producer ∈ producersOf k.bindings := by
  have hb : b ∈ lookupL k.bindings id := by
    rw [show lookupL k.bindings id = [b] from hl]
    exact List.mem_singleton.mpr rfl
  unfold lookupL at hb
  obtain ⟨p, hp, hpb⟩ := List.mem_map.mp hb
  have hpm : p ∈ k.bindings := List.mem_of_mem_filter hp
  exact List.mem_map.mpr ⟨p, hpm, by rw [hpb]⟩

/-- Resolution does not rebind, never removes disposers, taints no snapshot,
keeps disposer keys distinct, and every disposer it adds stems from an
installed scope-resource producer -- for all three mutual resolvers. -/
theorem resolveInv (classes : ClassTable) : ∀ fuel : Nat,
    (∀ s id out, resolve1 classes fuel s id = out → StInv s out.2) ∧
    (∀ s cls out, construct classes fuel s cls = out → StInv s out.2) ∧
    (∀ s ids out, resolveList classes fuel s ids = out → StInv s out.2) := by
  intro fuel
  induction fuel with
  | zero =>
    refine ⟨?_, ?_, ?_⟩ <;>
      · intro s x out h
        simp only [resolve1, construct, resolveList] at h
        rw [← h]
        exact StInv.refl s
  | succ n ih =>
    obtain ⟨ih1, ihc, ihl⟩ := ih
    refine ⟨?_, ?_, ?_⟩
    · intro s id out h
      cases hl : lookupBindings s.kernel id with
      | nil =>
        rw [resolve1_notBound hl] at h
        rw [← h]; exact StInv.refl s
      | cons b bs =>
        cases bs with
        | cons b2 bs2 =>
          rw [resolve1_ambiguous hl] at h
          rw [← h]; exact StInv.refl s
        | nil =>
          obtain ⟨prod, cache⟩ := b
          cases prod with
          | constant v =>
            rw [resolve1_constant hl] at h
            rw [← h]; exact StInv.refl s
          | transientOf cls =>
            rw [resolve1_transient hl] at h
            exact ihc s cls out h
          | singletonOf cls =>
            cases cache with
            | some v =>
              rw [resolve1_singleton_hit hl] at h
              rw [← h]; exact StInv.refl s
            | none =>
              cases hc : construct classes n s cls with
              | mk r1 s1 =>
                have base := ihc s cls (r1, s1) hc
                cases r1 with
                | error e =>
                  rw [resolve1_singleton_miss_err hl hc] at h
                  rw [← h]; exact base
                | ok v =>
                  rw [resolve1_singleton_miss_ok hl hc] at h
                  rw [← h]
                  exact base.trans (StInv_setCache s1 id v)
          | resource name fails =>
            cases hr : resolve1 classes n s (resourceInstanceId name) with
            | mk r1 s1 =>
              have base := ih1 s (resourceInstanceId name) (r1, s1) hr
              cases r1 with
              | error e =>
                rw [resolve1_resource_err hl hr] at h
                rw [← h]; exact base
              | ok inst =>
                cases hct : ((s1.disposers.map Disposer.name).contains name) with
                | true =>
                  rw [resolve1_resource_hit hl hr hct] at h
                  rw [← h]; exact base
                | false =>
                  rw [resolve1_resource_new hl hr hct] at h
                  rw [← h]
                  refine base.trans (StInv_dispose s1 name inst fails hct ?_)
                  rw [producersOf_eq_of_skel_eq base.1]
                  have hm := producer_mem_of_lookup hl
                  exact hm
    · intro s cls out h
      cases hlc : lookupClass classes cls with
      | none =>
        rw [construct_noClass hlc] at h
        rw [← h]; exact StInv.refl s
      | some params =>
        cases hrl : resolveList classes n s params with
        | mk r1 s1 =>
          have base := ihl s params (r1, s1) hrl
          cases r1 with
          | error e =>
            rw [construct_err hlc hrl] at h
            rw [← h]; exact base
          | ok vs =>
            rw [construct_ok hlc hrl] at h
            rw [← h]
            exact base.trans (StInv_bump s1)
    · intro s ids out h
      cases ids with
      | nil =>
        rw [resolveList_nil] at h
        rw [← h]; exact StInv.refl s
      | cons id rest =>
        cases h1 : resolve1 classes n s id with
        | mk r1 s1 =>
          have base := ih1 s id (r1, s1) h1
          cases r1 with
          | error e =>
            rw [resolveList_cons_err h1] at h
            rw [← h]; exact base
          | ok v =>
            cases h2 : resolveList classes n s1 rest with
            | mk r2 s2 =>
              have step := ihl s1 rest (r2, s2) h2
              cases r2 with
              | error e =>
                rw [resolveList_cons_ok_err h1 h2] at h
                rw [← h]; exact base.trans step
              | ok vs =>
                rw [resolveList_cons_ok_ok h1 h2] at h
                rw [← h]; exact base.trans step


/-! Lemmas connecting the overlay-installation phases to the invariant. -/

theorem bindScopeContextM_none {classes : ClassTable} {fuel : Nat} {s : RunState} :
    bindScopeContextM classes fuel none s =
      (none, { s with kernel := kbind s.kernel scopeContextId (.singletonOf scopeContextId) }) := by
  simp [bindScopeContextM]

theorem bindScopeContextM_some_err {classes : ClassTable} {fuel : Nat}
    {s s2 : RunState} {entries : List (String × Value)} {e : DiError}
    (hres : resolve1 classes fuel
        { s with kernel := kbind s.kernel scopeContextId (.singletonOf scopeContextId) }
        scopeContextId = (.error e, s2)) :
    bindScopeContextM classes fuel (some entries) s = (some e, s2) := by
  simp [bindScopeContextM, hres]

theorem bindScopeContextM_some_popErr {classes : ClassTable} {fuel : Nat}
    {s s2 : RunState} {entries : List (String × Value)} {v : Value}
    {c : CtxStore} {e : DiError}
    (hres : resolve1 classes fuel
        { s with kernel := kbind s.kernel scopeContextId (.singletonOf scopeContextId) }
        scopeContextId = (.ok v, s2))
    (hp : populate [] entries = (c, some e)) :
    bindScopeContextM classes fuel (some entries) s = (some e, s2) := by
  simp [bindScopeContextM, hres, hp]

theorem bindScopeContextM_some_popOk {classes : ClassTable} {fuel : Nat}
    {s s2 : RunState} {entries : List (String × Value)} {v : Value} {c : CtxStore}
    (hres : resolve1 classes fuel
        { s with kernel := kbind s.kernel scopeContextId (.singletonOf scopeContextId) }
        scopeContextId = (.ok v, s2))
    (hp : populate [] entries = (c, none)) :
    bindScopeContextM classes fuel (some entries) s = (none, s2) := by
  simp [bindScopeContextM, hres, hp]

theorem bindScopeContextM_inv {classes : ClassTable} {fuel : Nat}
    {ctxData : Option (List (String × Value))} {s : RunState}
    {res : Option DiError} {s' : RunState}
    (h : bindScopeContextM classes fuel ctxData s = (res, s')) :
    StInv { s with kernel := kbind s.kernel scopeContextId (.singletonOf scopeContextId) } s' := by
  cases ctxData with
  | none =>
    rw [bindScopeContextM_none] at h
    injection h with h1 h2
    rw [← h2]
    exact StInv.refl _
  | some entries =>
    cases hres : resolve1 classes fuel
        { s with kernel := kbind s.kernel scopeContextId (.singletonOf scopeContextId) }
        scopeContextId with
    | mk r1 s2 =>
      have base := (resolveInv classes fuel).1 _ scopeContextId (r1, s2) hres
      cases r1 with
      | error e =>
        rw [bindScopeContextM_some_err hres] at h
        injection h with h1 h2
        rw [← h2]
        exact base
      | ok v =>
        cases hp : populate [] entries with
        | mk c es =>
          cases es with
          | none =>
            rw [bindScopeContextM_some_popOk hres hp] at h
            injection h with h1 h2
            rw [← h2]
            exact base
          | some e =>
            rw [bindScopeContextM_some_popErr hres hp] at h
            injection h with h1 h2
            rw [← h2]
            exact base

theorem producersOf_append (a b : List (String × Binding)) :
    producersOf (a ++ b) = producersOf a ++ producersOf b := by
  simp [producersOf]

theorem bindScopeResources_bindings (resources : List ScopeResource) (k : Kernel) :
    (bindScopeResources resources k).bindings =
      k.bindings ++ (resources.map (fun r =>
        [(resourceInstanceId r.ctorName, (⟨.singletonOf r.ctorName, none⟩ : Binding)),
         (r.ctorName, (⟨.resource r.ctorName r.acquireFails, none⟩ : Binding))])).flatten ∧
    (bindScopeResources resources k).snapshots = k.snapshots := by
  induction resources generalizing k with
  | nil => simp [bindScopeResources]
  | cons r rs ih =>
    have step := ih (kbind (kbind k (resourceInstanceId r.ctorName) (.singletonOf r.ctorName))
      r.ctorName (.resource r.ctorName r.acquireFails))
    refine ⟨?_, ?_⟩
    · rw [show bindScopeResources (r :: rs) k =
          bindScopeResources rs (kbind (kbind k (resourceInstanceId r.ctorName)
            (.singletonOf r.ctorName)) r.ctorName (.resource r.ctorName r.acquireFails))
          from rfl]
      rw [step.1]
      simp [kbind]
    · rw [show bindScopeResources (r :: rs) k =
          bindScopeResources rs (kbind (kbind k (resourceInstanceId r.ctorName)
            (.singletonOf r.ctorName)) r.ctorName (.resource r.ctorName r.acquireFails))
          from rfl]
      rw [step.2]
      simp [kbind]

theorem no_resource_in_clean {k : Kernel}
    (hclean : (k.bindings.all (fun p => !isResourceProducer p.2.producer)) = true)
    {n : String} {f : Bool}
    (h : Producer.resource n f ∈ producersOf k.bindings) : False := by
  obtain ⟨p, hp, hpe⟩ := List.mem_map.mp h
  have := List.all_eq_true.mp hclean p hp
  rw [hpe] at this
  simp [isResourceProducer] at this

theorem mem_resources_of_mem_overlay {resources : List ScopeResource}
    {n : String} {f : Bool}
    (h : Producer.resource n f ∈ ((resources.map (fun r =>
        [(resourceInstanceId r.ctorName, (⟨.singletonOf r.ctorName, none⟩ : Binding)),
         (r.ctorName, (⟨.resource r.ctorName r.acquireFails, none⟩ : Binding))])).flatten).map
        (fun p => p.2.producer)) :
    (⟨n, f⟩ : ScopeResource) ∈ resources := by
  induction resources with
  | nil => simp at h
  | cons r rs ih =>
    simp only [List.map_cons, List.flatten_cons, List.map_append] at h
    rcases List.mem_append.mp h with h | h
    · simp only [List.map_cons, List.map_nil, List.mem_cons, List.not_mem_nil,
        or_false] at h
      rcases h with h | h
      · cases h
      · obtain ⟨h1, h2⟩ := Producer.resource.inj h
        subst h1
        subst h2
        exact List.mem_cons_self r rs
    · exact List.mem_cons_of_mem r (ih h)

theorem resolveList_length {classes : ClassTable} :
    ∀ {fuel : Nat} {s : RunState} {ids : List String} {vs : List Value} {s' : RunState},
      resolveList classes fuel s ids = (.ok vs, s') → vs.length = ids.length := by
  intro fuel s ids
  induction ids generalizing fuel s with
  | nil =>
    intro vs s' h
    cases fuel with
    | zero => simp [resolveList] at h
    | succ n =>
      rw [resolveList_nil] at h
      injection h with h1 h2
      injection h1 with h1
      rw [← h1]
      rfl
  | cons id rest ih =>
    intro vs s' h
    cases fuel with
    | zero => simp [resolveList] at h
    | succ n =>
      cases h1 : resolve1 classes n s id with
      | mk r1 s1 =>
        cases r1 with
        | error e =>
          rw [resolveList_cons_err h1] at h
          injection h with hbad
          cases hbad
        | ok v =>
          cases h2 : resolveList classes n s1 rest with
          | mk r2 s2 =>
            cases r2 with
            | error e =>
              rw [resolveList_cons_ok_err h1 h2] at h
              injection h with hbad
              cases hbad
            | ok vs2 =>
              rw [resolveList_cons_ok_ok h1 h2] at h
              injection h with hh1 hh2
              injection hh1 with hh1
              rw [← hh1]
              simp [ih h2]

theorem resolveList_take {classes : ClassTable} :
    ∀ {fuel : Nat} {s : RunState} {ids : List String} {vs : List Value} {s' : RunState},
      resolveList classes fuel s ids = (.ok vs, s') →
      ∀ m, ∃ smid, resolveList classes fuel s (ids.take m) = (.ok (vs.take m), smid) := by
  intro fuel s ids
  induction ids generalizing fuel s with
  | nil =>
    intro vs s' h m
    cases fuel with
    | zero => simp [resolveList] at h
    | succ n =>
      rw [resolveList_nil] at h
      injection h with h1 h2
      injection h1 with h1
      rw [← h1]
      exact ⟨s, by simp [resolveList_nil]⟩
  | cons id rest ih =>
    intro vs s' h m
    cases fuel with
    | zero => simp [resolveList] at h
    | succ n =>
      cases h1 : resolve1 classes n s id with
      | mk r1 s1 =>
        cases r1 with
        | error e =>
          rw [resolveList_cons_err h1] at h
          injection h with hbad
          cases hbad
        | ok v =>
          cases h2 : resolveList classes n s1 rest with
          | mk r2 s2 =>
            cases r2 with
            | error e =>
              rw [resolveList_cons_ok_err h1 h2] at h
              injection h with hbad
              cases hbad
            | ok vs2 =>
              rw [resolveList_cons_ok_ok h1 h2] at h
              injection h with hh1 hh2
              injection hh1 with hh1
              cases m with
              | zero => exact ⟨s, by simp [resolveList_nil]⟩
              | succ m' =>
                obtain ⟨smid, heq⟩ := ih h2 m'
                refine ⟨smid, ?_⟩
                rw [← hh1]
                simpa using resolveList_cons_ok_ok h1 heq

/-! Unfolding `run` once the resolution phase's outcome is known. -/

theorem runUsing_all_ok {R : Type} {ds : List Disposer} {args : List Value}
    {task : List Value → Except String R}
    (hacq : ds.find? (fun d => d.acquireFails) = none) :
    runUsing ds args task =
      (ds.map (fun d => (d.name, d.inst)),
        match task args with
        | .ok r => .ok r
        | .error m => .error (.taskFailed m)) := by
  simp only [runUsing, hacq]

theorem runUsing_fail {R : Type} {ds : List Disposer} {args : List Value}
    {task : List Value → Except String R} {d : Disposer}
    (hf : ds.find? (fun d => d.acquireFails) = some d) :
    runUsing ds args task =
      ((ds.filter (fun x => !x.acquireFails)).map (fun x => (x.name, x.inst)),
        .error (.acquireFailed d.name)) := by
  simp only [runUsing, hf]

theorem runModel_eq_of_resolution {classes : ClassTable}
    {resources : List ScopeResource} {sc : Scope} {kernel : Kernel}
    {tok fuel : Nat} {s2 s4 : RunState} {args : List Value}
    (hctx : bindScopeContextM classes fuel sc.ctxData
        ⟨Kernel.snapshot kernel, sc.disposers, tok⟩ = (none, s2))
    (hres : resolveList classes fuel
        { s2 with kernel := bindScopeResources resources s2.kernel }
        sc.injections = (.ok args, s4)) :
    ∀ (R : Type) (task : List Value → Except String R),
      Scope.runModel classes resources sc kernel tok fuel task =
        .finished (Kernel.restore s4.kernel) s4.nextToken
          (runUsing s4.disposers args task).1 (runUsing s4.disposers args task).2 := by
  intro R task
  simp only [Scope.runModel, hctx, hres]

/-- C2.  Once `run` reaches the unit of work (resolution succeeded, all
acquisition promises fulfilled), every deferred release recorded in this
scope's disposer set executes exactly once -- the executed releases are
exactly the disposer set, whose keys are pairwise distinct -- and this list
is the same whatever the task does (returns, throws, or rejects).  Moreover
every disposer in the set stems from a registered scope resource whose
acquisition actually ran in this scope (on a registry with no stray
resource producers, every disposer's descriptor is one of `resources`);
resources never resolved in the scope contribute no disposer, hence no
release. -/
theorem c2_releases_exactly_once
    (classes : ClassTable) (resources : List ScopeResource) (sc : Scope)
    (kernel : Kernel) (tok fuel : Nat) (s2 s4 : RunState) (args : List Value)
    (hfresh : sc.disposers = [])
    (hctx : bindScopeContextM classes fuel sc.ctxData
        ⟨Kernel.snapshot kernel, sc.disposers, tok⟩ = (none, s2))
    (hres : resolveList classes fuel
        { s2 with kernel := bindScopeResources resources s2.kernel }
        sc.injections = (.ok args, s4))
    (hclean : (kernel.bindings.all (fun p => !isResourceProducer p.2.producer)) = true) :
    (s4.disposers.map Disposer.name).Nodup ∧
    (∀ d ∈ s4.disposers, (⟨d.name, d.acquireFails⟩ : ScopeResource) ∈ resources) ∧
    (s4.disposers.find? (fun d => d.acquireFails) = none →
      ∀ (R : Type) (task : List Value → Except String R),
        Scope.runModel classes resources sc kernel tok fuel task =
          .finished (Kernel.restore s4.kernel) s4.nextToken
            (s4.disposers.map (fun d => (d.name, d.inst)))
            (match task args with
             | .ok r => .ok r
             | .error m => .error (.taskFailed m))) := by
  have hctxInv := bindScopeContextM_inv hctx
  have hresInv := (resolveInv classes fuel).2.2 _ sc.injections (.ok args, s4) hres
  obtain ⟨hsk1, hsn1, hnt1, ⟨tl1, hd1, hp1⟩, hnd1⟩ := hctxInv
  obtain ⟨hsk2, hsn2, hnt2, ⟨tl2, hd2, hp2⟩, hnd2⟩ := hresInv
  have hbsr := bindScopeResources_bindings resources s2.kernel
  have hprod0 : producersOf s2.kernel.bindings =
      producersOf kernel.bindings ++ [Producer.singletonOf scopeContextId] := by
    have := producersOf_eq_of_skel_eq hsk1
    rw [this]
    show producersOf (kernel.bindings ++ [(scopeContextId, ⟨.singletonOf scopeContextId, none⟩)]) = _
    rw [producersOf_append]
    rfl
  have hmemres : ∀ d ∈ s4.disposers, (⟨d.name, d.acquireFails⟩ : ScopeResource) ∈ resources := by
    intro d hd
    rw [hd2] at hd
    rcases List.mem_append.mp hd with hd' | hd'
    · -- from the context-binding phase: impossible on a clean registry
      rw [hd1, hfresh, List.nil_append] at hd'
      have hm : Producer.resource d.name d.acquireFails ∈
          producersOf (kernel.bindings ++
            [(scopeContextId, ⟨.singletonOf scopeContextId, none⟩)]) := hp1 d hd'
      rw [producersOf_append] at hm
      rcases List.mem_append.mp hm with hm | hm
      · exact absurd hm (fun hmm => no_resource_in_clean hclean hmm)
      · simp [producersOf] at hm
    · have hm := hp2 d hd'
      have : producersOf (bindScopeResources resources s2.kernel).bindings =
          producersOf s2.kernel.bindings ++
            ((resources.map (fun r =>
              [(resourceInstanceId r.ctorName, (⟨.singletonOf r.ctorName, none⟩ : Binding)),
               (r.ctorName, (⟨.resource r.ctorName r.acquireFails, none⟩ : Binding))])).flatten).map
              (fun p => p.2.producer) := by
        show producersOf (bindScopeResources resources s2.kernel).bindings = _
        rw [hbsr.1, producersOf_append]
        rfl
      rw [this] at hm
      rcases List.mem_append.mp hm with hm | hm
      · rw [hprod0] at hm
        rcases List.mem_append.mp hm with hm | hm
        · exact absurd hm (fun hmm => no_resource_in_clean hclean hmm)
        · rw [List.mem_singleton] at hm
          cases hm
      · exact mem_resources_of_mem_overlay hm
  refine ⟨?_, hmemres, ?_⟩
  · apply hnd2
    show (s2.disposers.map Disposer.name).Nodup
    apply hnd1
    rw [hfresh]
    exact List.nodup_nil
  · intro hacq R task
    rw [runModel_eq_of_resolution hctx hres R task, runUsing_all_ok hacq]

/-- C4.  If some resource's acquisition step failed during this scope's
resolution, `run`'s outcome is that acquisition failure for every task (the
unit of work is never invoked), and exactly the resources whose acquisition
succeeded are still released. -/
theorem c4_acquire_failure_aborts
    (classes : ClassTable) (resources : List ScopeResource) (sc : Scope)
    (kernel : Kernel) (tok fuel : Nat) (s2 s4 : RunState) (args : List Value)
    (d : Disposer)
    (hctx : bindScopeContextM classes fuel sc.ctxData
        ⟨Kernel.snapshot kernel, sc.disposers, tok⟩ = (none, s2))
    (hres : resolveList classes fuel
        { s2 with kernel := bindScopeResources resources s2.kernel }
        sc.injections = (.ok args, s4))
    (hfail : s4.disposers.find? (fun x => x.acquireFails) = some d) :
    ∀ (R : Type) (task : List Value → Except String R),
      Scope.runModel classes resources sc kernel tok fuel task =
        .finished (Kernel.restore s4.kernel) s4.nextToken
          ((s4.disposers.filter (fun x => !x.acquireFails)).map (fun x => (x.name, x.inst)))
          (.error (.acquireFailed d.name)) := by
  intro R task
  rw [runModel_eq_of_resolution hctx hres R task, runUsing_fail hfail]

/-- C9.  When resolution succeeds and all acquisitions fulfil, `run` resolves
the declared identifiers in exactly the order given to `inject` (every prefix
of the declaration list resolves to the matching prefix of the argument
list), hands the task that positional argument list, and the task's outcome
(value or failure) is the outcome of `run`. -/
theorem c9_order_and_outcome
    (classes : ClassTable) (resources : List ScopeResource) (sc : Scope)
    (kernel : Kernel) (tok fuel : Nat) (s2 s4 : RunState) (args : List Value)
    (hctx : bindScopeContextM classes fuel sc.ctxData
        ⟨Kernel.snapshot kernel, sc.disposers, tok⟩ = (none, s2))
    (hres : resolveList classes fuel
        { s2 with kernel := bindScopeResources resources s2.kernel }
        sc.injections = (.ok args, s4))
    (hacq : s4.disposers.find? (fun x => x.acquireFails) = none) :
    args.length = sc.injections.length ∧
    (∀ m, ∃ smid, resolveList classes fuel
        { s2 with kernel := bindScopeResources resources s2.kernel }
        (sc.injections.take m) = (.ok (args.take m), smid)) ∧
    (∀ (R : Type) (task : List Value → Except String R),
      Scope.runModel classes resources sc kernel tok fuel task =
        .finished (Kernel.restore s4.kernel) s4.nextToken
          (s4.disposers.map (fun d => (d.name, d.inst)))
          (match task args with
           | .ok r => .ok r
           | .error m => .error (.taskFailed m))) := by
  refine ⟨resolveList_length hres, fun m => resolveList_take hres m, ?_⟩
  intro R task
  rw [runModel_eq_of_resolution hctx hres R task, runUsing_all_ok hacq]


/-! Small algebra of binding-list lookup and cache update. -/

theorem lookupL_append (a b : List (String × Binding)) (id : String) :
    lookupL (a ++ b) id = lookupL a id ++ lookupL b id := by
  simp [lookupL, List.filter_append]

theorem lookupL_nil (id : String) : lookupL [] id = [] := rfl

theorem lookupL_single_self (x : String) (b : Binding) :
    lookupL [(x, b)] x = [b] := by
  simp [lookupL]

theorem lookupL_single_ne {x y : String} (b : Binding) (h : x ≠ y) :
    lookupL [(x, b)] y = [] := by
  simp [lookupL, h]

theorem setCacheL_append (a b : List (String × Binding)) (id : String) (v : Value) :
    setCacheL (a ++ b) id v = setCacheL a id v ++ setCacheL b id v := by
  simp [setCacheL]

theorem setCacheL_of_lookupL_nil {bs : List (String × Binding)} {id : String}
    (h : lookupL bs id = []) (v : Value) : setCacheL bs id v = bs := by
  unfold lookupL at h
  have hf : bs.filter (fun p => p.1 == id) = [] := by
    cases hq : bs.filter (fun p => p.1 == id) with
    | nil => rfl
    | cons q qs => rw [hq] at h; simp at h
  have hnot : ∀ p ∈ bs, ¬((p.1 == id) = true) := by
    intro p hp hpe
    have : p ∈ bs.filter (fun q => q.1 == id) := List.mem_filter.mpr ⟨hp, hpe⟩
    rw [hf] at this
    cases this
  unfold setCacheL
  have : ∀ p ∈ bs, (if p.1 == id then (p.1, { p.2 with cache := some v }) else p) = p := by
    intro p hp
    simp [hnot p hp]
  rw [List.map_congr_left this]
  simp

theorem setCacheL_single_self (x : String) (b : Binding) (v : Value) :
    setCacheL [(x, b)] x v = [(x, { b with cache := some v })] := by
  simp [setCacheL]

/-- C6.  Supplying scope-context data whose entries write the same key twice
makes `run` throw the duplicate-key error synchronously, during the
context-population step: the scope-resource overlay bindings are not yet
installed (the kernel at the throw holds exactly the original bindings plus
the fresh `ScopeContext` singleton, here with its cached instance), no
declared identifier has been resolved, no resource was acquired (the
disposer set is empty), and the task is never invoked (the outcome is the
same for every task). -/
theorem c6_duplicate_context_key_fails_early
    (classes : ClassTable) (resources : List ScopeResource) (sc : Scope)
    (kernel : Kernel) (tok f : Nat) (entries : List (String × Value))
    (c0 : CtxStore) (n : String)
    (hdata : sc.ctxData = some entries)
    (hdisp : sc.disposers = [])
    (hpop : populate [] entries = (c0, some (.duplicateKey n)))
    (hSCfree : lookupBindings kernel scopeContextId = [])
    (hSCclass : lookupClass classes scopeContextId = some []) :
    ∀ (R : Type) (task : List Value → Except String R),
      Scope.runModel classes resources sc kernel tok (f + 3) task =
        .syncThrow (.duplicateKey n)
          ⟨kernel.bindings ++
            [(scopeContextId, ⟨.singletonOf scopeContextId, some (.obj tok scopeContextId [])⟩)],
            kernel.bindings :: kernel.snapshots⟩
          (tok + 1) [] := by
  obtain ⟨cd, inj, disp⟩ := sc
  replace hdata : cd = some entries := hdata
  replace hdisp : disp = [] := hdisp
  subst hdata
  subst hdisp
  intro R task
  have hSCfree' : lookupL kernel.bindings scopeContextId = [] := hSCfree
  have hlook : lookupBindings
      (kbind (Kernel.snapshot kernel) scopeContextId (.singletonOf scopeContextId))
      scopeContextId = [⟨.singletonOf scopeContextId, none⟩] := by
    show lookupL (kernel.bindings ++ [(scopeContextId, ⟨.singletonOf scopeContextId, none⟩)])
      scopeContextId = _
    rw [lookupL_append, hSCfree', lookupL_single_self]
    rfl
  have hcons : construct classes (f + 2)
      (⟨kbind (Kernel.snapshot kernel) scopeContextId (.singletonOf scopeContextId),
        [], tok⟩ : RunState) scopeContextId =
      (.ok (.obj tok scopeContextId []),
        ⟨kbind (Kernel.snapshot kernel) scopeContextId (.singletonOf scopeContextId),
          [], tok + 1⟩) :=
    construct_ok hSCclass resolveList_nil
  have hres1 : resolve1 classes (f + 3)
      (⟨kbind (Kernel.snapshot kernel) scopeContextId (.singletonOf scopeContextId),
        [], tok⟩ : RunState) scopeContextId =
      (.ok (.obj tok scopeContextId []),
        ⟨setCache (kbind (Kernel.snapshot kernel) scopeContextId (.singletonOf scopeContextId))
            scopeContextId (.obj tok scopeContextId []),
          [], tok + 1⟩) :=
    resolve1_singleton_miss_ok hlook hcons
  have hctx2 : bindScopeContextM classes (f + 3) (some entries)
      (⟨Kernel.snapshot kernel, [], tok⟩ : RunState) =
      (some (.duplicateKey n),
        ⟨setCache (kbind (Kernel.snapshot kernel) scopeContextId (.singletonOf scopeContextId))
            scopeContextId (.obj tok scopeContextId []),
          [], tok + 1⟩) :=
    bindScopeContextM_some_popErr hres1 hpop
  have hsetc : setCache (kbind (Kernel.snapshot kernel) scopeContextId
        (.singletonOf scopeContextId)) scopeContextId (.obj tok scopeContextId []) =
      ⟨kernel.bindings ++
        [(scopeContextId, ⟨.singletonOf scopeContextId, some (.obj tok scopeContextId [])⟩)],
        kernel.bindings :: kernel.snapshots⟩ := by
    simp [setCache, kbind, Kernel.snapshot, setCacheL_append, setCacheL_single_self,
      setCacheL_of_lookupL_nil hSCfree']
  simp only [Scope.runModel, hctx2, hsetc]


/-- C2 witness: on the demo container, injecting `Baz` and `BazBaz` acquires
`Resource` once, the run finishes with that single release executed, and the
disposer keys are distinct. -/
theorem c2_releases_exactly_once_witness :
    Scope.runModel demoClasses demoResources { injections := ["Baz", "BazBaz"] }
        demoKernel 0 20 idTask =
      .finished demoKernel 3 [("Resource", .obj 0 "Resource" [])]
        (.ok [.obj 1 "Baz" [.obj 0 "Resource" []],
              .obj 2 "BazBaz" [.obj 0 "Resource" []]]) ∧
    (c2S4.disposers.map Disposer.name).Nodup :=
  have h := c2_releases_exactly_once demoClasses demoResources
    { injections := ["Baz", "BazBaz"] } demoKernel 0 20 demoS2 c2S4
    [.obj 1 "Baz" [.obj 0 "Resource" []], .obj 2 "BazBaz" [.obj 0 "Resource" []]]
    rfl (by decide) (by decide) (by decide)
  ⟨(h.2.2 (by decide) (List Value) idTask).trans (by decide), h.1⟩

/-- C4 witness: with a failing acquisition step for `Resource`, `run` on the
demo container finishes with the acquisition error, no release executes (the
only acquisition failed), and the task result is not consulted. -/
theorem c4_acquire_failure_aborts_witness :
    Scope.runModel demoClasses [⟨"Resource", true⟩] { injections := ["Baz"] }
        demoKernel 0 20 idTask =
      .finished demoKernel 2 [] (.error (.acquireFailed "Resource")) :=
  ((c4_acquire_failure_aborts demoClasses [⟨"Resource", true⟩]
      { injections := ["Baz"] } demoKernel 0 20 demoS2 c4S4
      [.obj 1 "Baz" [.obj 0 "Resource" []]]
      ⟨"Resource", .obj 0 "Resource" [], true⟩
      (by decide) (by decide) (by decide))
    (List Value) idTask).trans (by decide)

/-- C9 witness: injecting `[Foo, Baz]` on the demo container yields two
positional arguments matching the declaration order, and a throwing task
makes `run` fail with that same message after the release executed. -/
theorem c9_order_and_outcome_witness :
    ([(Value.obj 0 "Foo" []), .obj 2 "Baz" [.obj 1 "Resource" []]] : List Value).length =
      (["Foo", "Baz"] : List String).length ∧
    Scope.runModel demoClasses demoResources { injections := ["Foo", "Baz"] }
        demoKernel 0 20 (errTask "boom") =
      .finished demoKernel 3 [("Resource", .obj 1 "Resource" [])]
        (.error (.taskFailed "boom")) :=
  have h := c9_order_and_outcome demoClasses demoResources
    { injections := ["Foo", "Baz"] } demoKernel 0 20 demoS2 c9S4
    [.obj 0 "Foo" [], .obj 2 "Baz" [.obj 1 "Resource" []]]
    (by decide) (by decide) (by decide)
  ⟨h.1, (h.2.2 (List Value) (errTask "boom")).trans (by decide)⟩

/-- C6 witness: context data writing key `"a"` twice makes `run` on the demo
container throw the duplicate-key error with only the `ScopeContext` overlay
binding present, no resource binding installed and no disposer recorded. -/
theorem c6_duplicate_context_key_fails_early_witness :
    Scope.runModel demoClasses demoResources
        { ctxData := some [("a", .const 1), ("a", .const 2)], injections := ["Foo"] }
        demoKernel 0 20 idTask =
      .syncThrow (.duplicateKey "a")
        ⟨demoBindings ++
          [("ScopeContext", ⟨.singletonOf "ScopeContext",
            some (.obj 0 "ScopeContext" [])⟩)],
         [demoBindings]⟩ 1 [] :=
  c6_duplicate_context_key_fails_early demoClasses demoResources
    { ctxData := some [("a", .const 1), ("a", .const 2)], injections := ["Foo"] }
    demoKernel 0 17 [("a", .const 1), ("a", .const 2)] [("a", .const 1)] "a"
    rfl rfl (by decide) (by decide) (by decide) (List Value) idTask


/-- One run of a scope injecting just a registered resource identifier, on a
registry where neither the resource identifier, its `@instance` companion,
nor `ScopeContext` is bound: the resource is constructed at the current
allocator position, released exactly once, and the kernel is fully restored.
Shared helper for the two sequential runs of C5. -/
theorem c5_single_run
    (classes : ClassTable) (kernel : Kernel) (tok f : Nat) (Rid : String)
    (hRclass : lookupClass classes Rid = some [])
    (hRfree : lookupBindings kernel Rid = [])
    (hIfree : lookupBindings kernel (resourceInstanceId Rid) = [])
    (hne1 : Rid ≠ scopeContextId)
    (hne2 : resourceInstanceId Rid ≠ scopeContextId)
    (hne3 : Rid ≠ resourceInstanceId Rid) :
    Scope.runModel classes [⟨Rid, false⟩] { injections := [Rid] } kernel tok (f + 5) idTask =
      .finished kernel (tok + 1) [(Rid, .obj tok Rid [])] (.ok [.obj tok Rid []]) := by
  have hRfree' : lookupL kernel.bindings Rid = [] := hRfree
  have hIfree' : lookupL kernel.bindings (resourceInstanceId Rid) = [] := hIfree
  have hlookR : lookupBindings
      (⟨((kernel.bindings ++ [(scopeContextId, ⟨.singletonOf scopeContextId, none⟩)]) ++
          [(resourceInstanceId Rid, ⟨.singletonOf Rid, none⟩)]) ++
          [(Rid, ⟨.resource Rid false, none⟩)],
        kernel.bindings :: kernel.snapshots⟩ : Kernel) Rid =
      [⟨.resource Rid false, none⟩] := by
    show lookupL _ Rid = _
    rw [lookupL_append, lookupL_append, lookupL_append, hRfree',
      lookupL_single_ne _ (Ne.symm hne1), lookupL_single_ne _ (Ne.symm hne3),
      lookupL_single_self]
    simp
  have hlookI : lookupBindings
      (⟨((kernel.bindings ++ [(scopeContextId, ⟨.singletonOf scopeContextId, none⟩)]) ++
          [(resourceInstanceId Rid, ⟨.singletonOf Rid, none⟩)]) ++
          [(Rid, ⟨.resource Rid false, none⟩)],
        kernel.bindings :: kernel.snapshots⟩ : Kernel) (resourceInstanceId Rid) =
      [⟨.singletonOf Rid, none⟩] := by
    show lookupL _ (resourceInstanceId Rid) = _
    rw [lookupL_append, lookupL_append, lookupL_append, hIfree',
      lookupL_single_ne _ (Ne.symm hne2), lookupL_single_self,
      lookupL_single_ne _ hne3]
    simp
  have hcon := @construct_ok classes (f + 1)
    (⟨⟨((kernel.bindings ++ [(scopeContextId, ⟨.singletonOf scopeContextId, none⟩)]) ++
        [(resourceInstanceId Rid, ⟨.singletonOf Rid, none⟩)]) ++
        [(Rid, ⟨.resource Rid false, none⟩)],
      kernel.bindings :: kernel.snapshots⟩, [], tok⟩ : RunState) _ Rid [] []
    hRclass (@resolveList_nil classes f _)
  have hsing := resolve1_singleton_miss_ok hlookI hcon
  have hresource := resolve1_resource_new hlookR hsing rfl
  have hres := resolveList_cons_ok_ok hresource (@resolveList_nil classes (f + 3) _)
  simp only [Scope.runModel, bindScopeContextM_none, bindScopeResources, List.foldl,
    kbind, Kernel.snapshot, hres]
  rfl

/-- C5.  Two sequential, non-overlapping scopes created from the same
container both resolving the same registered resource type obtain distinct
instances: the first run constructs the resource at allocator position
`tok`, restores the registry on finishing, and the second run -- starting
from the restored registry and the advanced allocator -- constructs a fresh
instance at position `tok + 1`, which is a different object. -/
theorem c5_sequential_scopes_distinct
    (classes : ClassTable) (kernel : Kernel) (tok f : Nat) (Rid : String)
    (hRclass : lookupClass classes Rid = some [])
    (hRfree : lookupBindings kernel Rid = [])
    (hIfree : lookupBindings kernel (resourceInstanceId Rid) = [])
    (hne1 : Rid ≠ scopeContextId)
    (hne2 : resourceInstanceId Rid ≠ scopeContextId)
    (hne3 : Rid ≠ resourceInstanceId Rid) :
    Scope.runModel classes [⟨Rid, false⟩] { injections := [Rid] } kernel tok (f + 5) idTask =
      .finished kernel (tok + 1) [(Rid, .obj tok Rid [])] (.ok [.obj tok Rid []]) ∧
    Scope.runModel classes [⟨Rid, false⟩] { injections := [Rid] } kernel (tok + 1) (f + 5) idTask =
      .finished kernel (tok + 2) [(Rid, .obj (tok + 1) Rid [])] (.ok [.obj (tok + 1) Rid []]) ∧
    (Value.obj tok Rid [] ≠ .obj (tok + 1) Rid []) := by
  refine ⟨c5_single_run classes kernel tok f Rid hRclass hRfree hIfree hne1 hne2 hne3,
    c5_single_run classes kernel (tok + 1) f Rid hRclass hRfree hIfree hne1 hne2 hne3, ?_⟩
  intro h
  injection h with h1 h2 h3
  omega

/-- C5 witness: on the demo container, two sequential scopes each injecting
`Resource` get the instances with tokens 0 and 1, which differ. -/
theorem c5_sequential_scopes_distinct_witness :
    Scope.runModel demoClasses [⟨"Resource", false⟩] { injections := ["Resource"] }
        demoKernel 0 20 idTask =
      .finished demoKernel 1 [("Resource", .obj 0 "Resource" [])]
        (.ok [.obj 0 "Resource" []]) ∧
    Scope.runModel demoClasses [⟨"Resource", false⟩] { injections := ["Resource"] }
        demoKernel 1 20 idTask =
      .finished demoKernel 2 [("Resource", .obj 1 "Resource" [])]
        (.ok [.obj 1 "Resource" []]) ∧
    (Value.obj 0 "Resource" [] ≠ .obj 1 "Resource" []) :=
  c5_sequential_scopes_distinct demoClasses demoKernel 0 15 "Resource"
    (by decide) (by decide) (by decide) (by decide) (by decide) (by decide)


/-! Cache-update commutation lemmas, and the two consumer-resolution steps
of a scope in which two classes share one resource. -/

theorem setCacheL_cons (p : String × Binding) (l : List (String × Binding))
    (id : String) (v : Value) :
    setCacheL (p :: l) id v =
      (if p.1 == id then (p.1, { p.2 with cache := some v }) else p) :: setCacheL l id v := rfl

theorem lookupL_cons (p : String × Binding) (l : List (String × Binding)) (y : String) :
    lookupL (p :: l) y = (if p.1 == y then [p.2] else []) ++ lookupL l y := by
  cases hq : (p.1 == y) <;> simp [lookupL, List.filter_cons, hq]

theorem lookupL_setCacheL_ne {bs : List (String × Binding)} {id y : String}
    {v : Value} (h : y ≠ id) :
    lookupL (setCacheL bs id v) y = lookupL bs y := by
  induction bs with
  | nil => rfl
  | cons p rest ih =>
    cases hq : (p.1 == id) with
    | true =>
      have h1 : p.1 = id := by rwa [beq_iff_eq] at hq
      have h2 : (id == y) = false := by
        rw [beq_eq_false_iff_ne]
        exact fun he => h he.symm
      simp [setCacheL_cons, lookupL_cons, hq, h1, h2, ih]
    | false =>
      simp [setCacheL_cons, lookupL_cons, hq, ih]

theorem lookupL_setCacheL_self {bs : List (String × Binding)} {id : String}
    {v : Value} :
    lookupL (setCacheL bs id v) id =
      (lookupL bs id).map (fun b => ⟨b.producer, some v⟩) := by
  induction bs with
  | nil => rfl
  | cons p rest ih =>
    cases hq : (p.1 == id) <;>
      simp [setCacheL_cons, lookupL_cons, hq, ih]

/-- First consumer of a scope resource: a transient class whose single
dependency is a resource identifier with an uncached `@instance` singleton
and no disposer recorded yet.  Resolving it constructs the resource (one
fresh token), caches it, records one disposer, then constructs the consumer
around it. -/
theorem resolve_consumer_first
    {classes : ClassTable} {f : Nat} {s : RunState} {A Rid : String}
    {c cr : Option Value} {fails : Bool}
    (hA : lookupBindings s.kernel A = [⟨.transientOf A, c⟩])
    (hAclass : lookupClass classes A = some [Rid])
    (hR : lookupBindings s.kernel Rid = [⟨.resource Rid fails, cr⟩])
    (hRclass : lookupClass classes Rid = some [])
    (hI : lookupBindings s.kernel (resourceInstanceId Rid) = [⟨.singletonOf Rid, none⟩])
    (hnotin : ((s.disposers.map Disposer.name).contains Rid) = false) :
    resolve1 classes (f + 7) s A =
      (.ok (.obj (s.nextToken + 1) A [.obj s.nextToken Rid []]),
        ⟨setCache s.kernel (resourceInstanceId Rid) (.obj s.nextToken Rid []),
          s.disposers ++ [⟨Rid, .obj s.nextToken Rid [], fails⟩],
          s.nextToken + 2⟩) := by
  have hconR := @construct_ok classes (f + 1) s s Rid [] [] hRclass
    (@resolveList_nil classes f s)
  have hsing := resolve1_singleton_miss_ok hI hconR
  have hresR := resolve1_resource_new hR hsing hnotin
  have hlist := resolveList_cons_ok_ok hresR (@resolveList_nil classes (f + 3) _)
  have hconA := construct_ok hAclass hlist
  exact (resolve1_transient hA).trans hconA

/-- Later consumer of the same scope resource: the `@instance` singleton is
already cached and the disposer already recorded, so resolving the consumer
returns the cached instance unchanged -- the reference-identical object --
and registers no further disposer. -/
theorem resolve_consumer_hit
    {classes : ClassTable} {f : Nat} {s : RunState} {B Rid cls : String}
    {c cr : Option Value} {fails : Bool} {vR : Value}
    (hB : lookupBindings s.kernel B = [⟨.transientOf B, c⟩])
    (hBclass : lookupClass classes B = some [Rid])
    (hR : lookupBindings s.kernel Rid = [⟨.resource Rid fails, cr⟩])
    (hI : lookupBindings s.kernel (resourceInstanceId Rid) = [⟨.singletonOf cls, some vR⟩])
    (hin : ((s.disposers.map Disposer.name).contains Rid) = true) :
    resolve1 classes (f + 6) s B =
      (.ok (.obj s.nextToken B [vR]), { s with nextToken := s.nextToken + 1 }) := by
  have hhit := @resolve1_singleton_hit classes (f + 1) s (resourceInstanceId Rid) cls vR hI
  have hresR := resolve1_resource_hit hR hhit hin
  have hlist := resolveList_cons_ok_ok hresR (@resolveList_nil classes (f + 2) s)
  have hconB := construct_ok hBclass hlist
  exact (resolve1_transient hB).trans hconB

/-- C3.  Within one scope, two distinct declared identifiers `A` and `B`
whose classes both depend on the same registered resource receive the
reference-identical resource instance (the same token `tok`), the disposer
set holds exactly one entry for that resource, and the single release fires
exactly once after the task. -/
theorem c3_shared_resource_single_disposer
    (classes : ClassTable) (kernel : Kernel) (tok f : Nat) (A B Rid : String)
    (cA cB : Option Value)
    (hA : lookupBindings kernel A = [⟨.transientOf A, cA⟩])
    (hB : lookupBindings kernel B = [⟨.transientOf B, cB⟩])
    (hAclass : lookupClass classes A = some [Rid])
    (hBclass : lookupClass classes B = some [Rid])
    (hRclass : lookupClass classes Rid = some [])
    (hRfree : lookupBindings kernel Rid = [])
    (hIfree : lookupBindings kernel (resourceInstanceId Rid) = [])
    (hA1 : A ≠ scopeContextId) (hA2 : A ≠ resourceInstanceId Rid) (hA3 : A ≠ Rid)
    (hB1 : B ≠ scopeContextId) (hB2 : B ≠ resourceInstanceId Rid) (hB3 : B ≠ Rid)
    (hne1 : Rid ≠ scopeContextId) (hne2 : resourceInstanceId Rid ≠ scopeContextId)
    (hne3 : Rid ≠ resourceInstanceId Rid) :
    Scope.runModel classes [⟨Rid, false⟩] { injections := [A, B] } kernel tok (f + 8) idTask =
      .finished kernel (tok + 3) [(Rid, .obj tok Rid [])]
        (.ok [.obj (tok + 1) A [.obj tok Rid []],
              .obj (tok + 2) B [.obj tok Rid []]]) := by
  have hA' : lookupL kernel.bindings A = [⟨.transientOf A, cA⟩] := hA
  have hB' : lookupL kernel.bindings B = [⟨.transientOf B, cB⟩] := hB
  have hRfree' : lookupL kernel.bindings Rid = [] := hRfree
  have hIfree' : lookupL kernel.bindings (resourceInstanceId Rid) = [] := hIfree
  have hlA3 : lookupBindings (⟨((kernel.bindings ++ [(scopeContextId, ⟨.singletonOf scopeContextId, none⟩)]) ++
        [(resourceInstanceId Rid, ⟨.singletonOf Rid, none⟩)]) ++
        [(Rid, ⟨.resource Rid false, none⟩)],
      kernel.bindings :: kernel.snapshots⟩ : Kernel) A = [⟨.transientOf A, cA⟩] := by
    show lookupL _ A = _
    rw [lookupL_append, lookupL_append, lookupL_append, hA',
      lookupL_single_ne _ (Ne.symm hA1), lookupL_single_ne _ (Ne.symm hA2),
      lookupL_single_ne _ (Ne.symm hA3)]
    simp
  have hlB3 : lookupBindings (⟨((kernel.bindings ++ [(scopeContextId, ⟨.singletonOf scopeContextId, none⟩)]) ++
        [(resourceInstanceId Rid, ⟨.singletonOf Rid, none⟩)]) ++
        [(Rid, ⟨.resource Rid false, none⟩)],
      kernel.bindings :: kernel.snapshots⟩ : Kernel) B = [⟨.transientOf B, cB⟩] := by
    show lookupL _ B = _
    rw [lookupL_append, lookupL_append, lookupL_append, hB',
      lookupL_single_ne _ (Ne.symm hB1), lookupL_single_ne _ (Ne.symm hB2),
      lookupL_single_ne _ (Ne.symm hB3)]
    simp
  have hlR3 : lookupBindings (⟨((kernel.bindings ++ [(scopeContextId, ⟨.singletonOf scopeContextId, none⟩)]) ++
        [(resourceInstanceId Rid, ⟨.singletonOf Rid, none⟩)]) ++
        [(Rid, ⟨.resource Rid false, none⟩)],
      kernel.bindings :: kernel.snapshots⟩ : Kernel) Rid = [⟨.resource Rid false, none⟩] := by
    show lookupL _ Rid = _
    rw [lookupL_append, lookupL_append, lookupL_append, hRfree',
      lookupL_single_ne _ (Ne.symm hne1), lookupL_single_ne _ (Ne.symm hne3),
      lookupL_single_self]
    simp
  have hlI3 : lookupBindings (⟨((kernel.bindings ++ [(scopeContextId, ⟨.singletonOf scopeContextId, none⟩)]) ++
        [(resourceInstanceId Rid, ⟨.singletonOf Rid, none⟩)]) ++
        [(Rid, ⟨.resource Rid false, none⟩)],
      kernel.bindings :: kernel.snapshots⟩ : Kernel) (resourceInstanceId Rid) =
      [⟨.singletonOf Rid, none⟩] := by
    show lookupL _ (resourceInstanceId Rid) = _
    rw [lookupL_append, lookupL_append, lookupL_append, hIfree',
      lookupL_single_ne _ (Ne.symm hne2), lookupL_single_self,
      lookupL_single_ne _ hne3]
    simp
  have hlB7 : lookupBindings (setCache (⟨((kernel.bindings ++ [(scopeContextId, ⟨.singletonOf scopeContextId, none⟩)]) ++
        [(resourceInstanceId Rid, ⟨.singletonOf Rid, none⟩)]) ++
        [(Rid, ⟨.resource Rid false, none⟩)],
      kernel.bindings :: kernel.snapshots⟩ : Kernel)
      (resourceInstanceId Rid) (.obj tok Rid [])) B = [⟨.transientOf B, cB⟩] := by
    show lookupL _ B = _
    simp only [setCache]
    rw [lookupL_setCacheL_ne hB2]
    exact hlB3
  have hlR7 : lookupBindings (setCache (⟨((kernel.bindings ++ [(scopeContextId, ⟨.singletonOf scopeContextId, none⟩)]) ++
        [(resourceInstanceId Rid, ⟨.singletonOf Rid, none⟩)]) ++
        [(Rid, ⟨.resource Rid false, none⟩)],
      kernel.bindings :: kernel.snapshots⟩ : Kernel)
      (resourceInstanceId Rid) (.obj tok Rid [])) Rid = [⟨.resource Rid false, none⟩] := by
    show lookupL _ Rid = _
    simp only [setCache]
    rw [lookupL_setCacheL_ne hne3]
    exact hlR3
  have hlI7 : lookupBindings (setCache (⟨((kernel.bindings ++ [(scopeContextId, ⟨.singletonOf scopeContextId, none⟩)]) ++
        [(resourceInstanceId Rid, ⟨.singletonOf Rid, none⟩)]) ++
        [(Rid, ⟨.resource Rid false, none⟩)],
      kernel.bindings :: kernel.snapshots⟩ : Kernel)
      (resourceInstanceId Rid) (.obj tok Rid [])) (resourceInstanceId Rid) =
      [⟨.singletonOf Rid, some (.obj tok Rid [])⟩] := by
    show lookupL _ (resourceInstanceId Rid) = _
    simp only [setCache]
    rw [lookupL_setCacheL_self]
    have hlI3' : lookupL
        (((kernel.bindings ++ [(scopeContextId, ⟨.singletonOf scopeContextId, none⟩)]) ++
          [(resourceInstanceId Rid, ⟨.singletonOf Rid, none⟩)]) ++
          [(Rid, ⟨.resource Rid false, none⟩)]) (resourceInstanceId Rid) =
        [⟨.singletonOf Rid, none⟩] := hlI3
    rw [hlI3']
    rfl
  have h1 := @resolve_consumer_first classes f
    (⟨⟨((kernel.bindings ++ [(scopeContextId, ⟨.singletonOf scopeContextId, none⟩)]) ++
        [(resourceInstanceId Rid, ⟨.singletonOf Rid, none⟩)]) ++
        [(Rid, ⟨.resource Rid false, none⟩)],
      kernel.bindings :: kernel.snapshots⟩, [], tok⟩ : RunState)
    A Rid cA none false hlA3 hAclass hlR3 hRclass hlI3 rfl
  have h2 := @resolve_consumer_hit classes f
    (⟨setCache
        (⟨((kernel.bindings ++ [(scopeContextId, ⟨.singletonOf scopeContextId, none⟩)]) ++
            [(resourceInstanceId Rid, ⟨.singletonOf Rid, none⟩)]) ++
            [(Rid, ⟨.resource Rid false, none⟩)],
          kernel.bindings :: kernel.snapshots⟩ : Kernel)
        (resourceInstanceId Rid) (.obj tok Rid []),
      [⟨Rid, .obj tok Rid [], false⟩], tok + 2⟩ : RunState)
    B Rid Rid cB none false (.obj tok Rid []) hlB7 hBclass hlR7 hlI7 (by simp)
  have hlistB := resolveList_cons_ok_ok h2 (@resolveList_nil classes (f + 5) _)
  have htop := resolveList_cons_ok_ok h1 hlistB
  simp only [Scope.runModel, bindScopeContextM_none, bindScopeResources, List.foldl,
    kbind, Kernel.snapshot, htop]
  rfl

/-- C3 witness: on the demo container, `Baz` and `BazBaz` both receive the
`Resource` instance with token 0, and the single release fires once. -/
theorem c3_shared_resource_single_disposer_witness :
    Scope.runModel demoClasses [⟨"Resource", false⟩]
        { injections := ["Baz", "BazBaz"] } demoKernel 0 20 idTask =
      .finished demoKernel 3 [("Resource", .obj 0 "Resource" [])]
        (.ok [.obj 1 "Baz" [.obj 0 "Resource" []],
              .obj 2 "BazBaz" [.obj 0 "Resource" []]]) :=
  c3_shared_resource_single_disposer demoClasses demoKernel 0 12 "Baz" "BazBaz"
    "Resource" none none (by decide) (by decide) (by decide) (by decide) (by decide)
    (by decide) (by decide) (by decide) (by decide) (by decide) (by decide)
    (by decide) (by decide) (by decide) (by decide) (by decide)

end IslandDi
